import Mathlib

/-!
# Verification of the Case Claiming Engine (`appultimabackup.py`)

A shallow embedding of the claim coordinator, activity log, status-string
handling and reporting aggregation of the Dash application
`src/appultimabackup.py`, together with theorems settling the frozen claims
about it.

Conventions of the embedding:
* Python strings are Lean `String`s; `pd.NA` cells are `none`.
* A pandas `DataFrame` is a column-name list plus positionally aligned rows.
* Timestamps are modelled as `Nat` ticks (the source formats them with
  `strftime`; the rendering is irrelevant to every claim and is elided).
* Selenium interactions are modelled by outcome data: each remote call is
  replaced by a value describing what the call would have produced
  (a result, or which exception class it raised).
-/

namespace CaseClaimer

/-! ## String helpers (Python `in`, `.upper()`, `.lower()`) -/

/-- Python `needle in hay` on character lists: `needle` occurs as a
contiguous substring of `hay`. -/
def containsSub (hay needle : List Char) : Bool :=
  match hay with
  | [] => needle.isEmpty
  | _ :: t => needle.isPrefixOf hay || containsSub t needle

/-- Python `needle in hay` for strings (case sensitive). -/
def strIn (needle hay : String) : Bool :=
  containsSub hay.data needle.data

/-- Python `s.upper()` (ASCII is all the source uses). -/
def upperStr (s : String) : String :=
  ⟨s.data.map Char.toUpper⟩

/-- Python `s.lower()`. -/
def lowerStr (s : String) : String :=
  ⟨s.data.map Char.toLower⟩

/-- Python `str(b)` for booleans, as interpolated by f-strings. -/
def pyBoolStr (b : Bool) : String :=
  if b then "True" else "False"

/-! ## The Activity Log (`get_case_log_df` / `append_to_case_log`)

`case_activity_log.xlsx` is modelled as `Option Df`: `none` when the file
does not exist yet.  A cell is `Option CellV` (`none` = `pd.NA`); a `CellV`
is either a string or a numeric/timestamp value. -/

/-- A cell value of the log table: a string or a number (timestamps and
durations are modelled as `Nat` ticks). -/
inductive CellV where
  | s (v : String)
  | n (v : Nat)
deriving DecidableEq

/-- A pandas DataFrame: named columns and positionally aligned rows. -/
structure Df where
  cols : List String
  rows : List (List (Option CellV))
deriving DecidableEq

/-- An entry dictionary passed to `append_to_case_log`: association list of
column name to cell value (`none` = `pd.NA`). -/
abbrev LogEntry := List (String × Option CellV)

/-- `LOG_COLUMNS_DEFINITION` (source line 203): the canonical column set of
the activity log. -/
def LOG_COLUMNS_DEFINITION : List String :=
  ["Date", "Observed Timestamp", "Claimed Timestamp", "Finished Timestamp",
   "Duration (seconds)", "Duration (HH:MM:SS)", "Case Display ID", "Country",
   "Assigned User", "Status (Observed)", "Account Name", "Case Title",
   "Menu Link"]

/-- Positional column access: the cell of `row` under column `c` of `cols`,
`none` when the column is absent (pandas reindexing fills `NA` there). -/
def getCol : List String → List (Option CellV) → String → Option CellV
  | [], _, _ => none
  | _ :: _, [], _ => none
  | c0 :: cs, v :: vs, c => if c0 = c then v else getCol cs vs c

/-- `df[col] = pd.NA` for a fresh column: pandas appends the column at the
end, with `NA` in every existing row; an existing column is left alone. -/
def addCol (df : Df) (c : String) : Df :=
  if c ∈ df.cols then df
  else ⟨df.cols ++ [c], df.rows.map (fun r => r ++ [none])⟩

/-- The `for col in LOG_COLUMNS_DEFINITION: if col not in df.columns: ...`
loops of the source. -/
def addCols (df : Df) : List String → Df
  | [] => df
  | c :: t => addCols (addCol df c) t

/-- Add every missing canonical column (with `NA` cells). -/
def addMissingCanonCols (df : Df) : Df :=
  addCols df LOG_COLUMNS_DEFINITION

/-- `df = df[LOG_COLUMNS_DEFINITION]`: select the canonical columns in
canonical order. -/
def reindexCanon (df : Df) : Df :=
  ⟨LOG_COLUMNS_DEFINITION,
   df.rows.map (fun r => LOG_COLUMNS_DEFINITION.map (getCol df.cols r))⟩

/-- `pd.DataFrame([log_entry_dict])`: a one-row frame whose columns are the
dictionary keys. -/
def dfFromEntry (e : LogEntry) : Df :=
  ⟨e.map Prod.fst, [e.map Prod.snd]⟩

/-- `pd.concat([d1, d2], ignore_index=True)`: union of the columns (order of
first appearance), rows aligned to it. -/
def dfConcat (d1 d2 : Df) : Df :=
  let cols := d1.cols ++ d2.cols.filter (fun c => !(decide (c ∈ d1.cols)))
  ⟨cols,
   d1.rows.map (fun r => cols.map (getCol d1.cols r)) ++
   d2.rows.map (fun r => cols.map (getCol d2.cols r))⟩

/-- `get_case_log_df` (source lines 205-219): read the store if it exists,
synthesize missing canonical columns as `NA` and reindex to the canonical
order; otherwise create an empty table with the canonical columns. -/
def get_case_log_df (store : Option Df) : Df :=
  match store with
  | some df => reindexCanon (addMissingCanonCols df)
  | none => ⟨LOG_COLUMNS_DEFINITION, []⟩

/-- `append_to_case_log` (source lines 221-237): read the table, build a
one-row frame from the entry, pad both to the canonical columns, reindex
both, concatenate and rewrite the store. -/
def append_to_case_log (e : LogEntry) (store : Option Df) : Option Df :=
  let dfLog := reindexCanon (addMissingCanonCols (get_case_log_df store))
  let dfNew := reindexCanon (addMissingCanonCols (dfFromEntry e))
  some (dfConcat dfLog dfNew)

/-- First binding of column `c` in an entry dictionary. -/
def entryLookup : LogEntry → String → Option (Option CellV)
  | [], _ => none
  | (k, v) :: t, c => if k = c then some v else entryLookup t c

/-- The canonical row an entry dictionary persists as: supplied values kept,
omitted canonical columns `NA`. -/
def entryRow (e : LogEntry) : List (Option CellV) :=
  LOG_COLUMNS_DEFINITION.map (fun c => (entryLookup e c).join)

/-! ## Field extraction (`extract_field_data`, source lines 177-196)

Each Selenium interaction of the extraction is replaced by its outcome:
either a result or the exception class it raised.  The except clauses of the
source resolve in order `NoSuchElementException` (pass), then
`StaleElementReferenceException` (re-raise), then `WebDriverException`
(re-raise), then `Exception` (swallow, keep the default). -/

/-- Outcome of one remote call: a value, or the (resolved) exception class. -/
inductive SelenOutcome (α : Type) where
  | ok (a : α)
  | noSuchElement
  | stale
  | webdriver
  | other
deriving DecidableEq

/-- What `extract_field_data` observes about a row for one column: whether
the handle is a WebElement, how the column-div lookup, the span lookup and
the text read behave. -/
structure RowFieldAccess where
  isWebElement : Bool
  columnDivCount : SelenOutcome Nat
  spanCount : SelenOutcome Nat
  textRead : SelenOutcome String
deriving DecidableEq

/-- The exceptions `extract_field_data` re-raises. -/
inductive ExtractErr where
  | staleElement
  | webDriver
deriving DecidableEq

/-- Run one step of the extraction under the function-level except clauses:
`noSuchElement` falls through with the default, stale and WebDriver errors
re-raise, any other exception keeps the default. -/
def handleStep {α : Type} (o : SelenOutcome α) (defaultValue : String)
    (k : α → Except ExtractErr String) : Except ExtractErr String :=
  match o with
  | .ok a => k a
  | .noSuchElement => .ok defaultValue
  | .stale => .error .staleElement
  | .webdriver => .error .webDriver
  | .other => .ok defaultValue

/-- `extract_field_data` (source lines 177-196). -/
def extract_field_data (row : RowFieldAccess) (defaultValue : String) :
    Except ExtractErr String :=
  if row.isWebElement = false then .ok defaultValue
  else
    handleStep row.columnDivCount defaultValue (fun nDivs =>
      if nDivs = 0 then .ok defaultValue
      else
        handleStep row.spanCount defaultValue (fun nSpans =>
          if nSpans = 0 then .ok defaultValue
          else
            handleStep row.textRead defaultValue (fun raw =>
              let stripped := raw.trim
              if stripped = "" then .ok defaultValue else .ok stripped)))

/-! ## The claim scan (`find_and_claim_cases`, source lines 1205-1493)

A discovered row is modelled by what processing it would produce: the
visibility/staleness events of lines 1287-1330 and 1460-1471, or the
extracted field values of lines 1332-1358 together with the behaviour of
the claim interaction of lines 1360-1433. -/

/-- Extracted field values of a row, and how a claim attempt on it behaves. -/
structure RowFields where
  mainTaskId : String
  rowIdAttr : String
  status : String
  country : String
  userEmail : String
  accountName : String
  caseTitle : String
  menuLink : String
  dishPhotosLink : String
  menuInstructions : String
  requestSentDate : String
  createdBy : String
deriving DecidableEq

/-- Behaviour of the claim interaction (click, Start Task, confirmation) on
a row, were it attempted.  `success` carries what
`scrape_and_prepare_case_files` would return for the case's link. -/
inductive ClaimOutcome where
  | success (scrapeData : Option Unit)
  | wdErr
  | otherErrNavDead
  | otherErrNavOk
deriving DecidableEq

/-- What processing a discovered row produces. -/
inductive RowEvent where
  | notVisible
  | staleRow
  | timeoutRow
  | webdriverErr
  | otherErr
  | fields (f : RowFields) (claim : ClaimOutcome)
deriving DecidableEq

/-- Outcome of the row-discovery phase (lines 1235-1270): a row list, a
timeout, a dead session (`WebDriverException`), or another error. -/
inductive DiscoverResult where
  | found (rows : List RowEvent)
  | timeout
  | sessionDead
  | otherError
deriving DecidableEq

/-- The claimed-case dictionary built at lines 1380-1389. -/
structure Case where
  display_id : String
  row_id_attr : String
  user_email : String
  account_name : String
  case_title : String
  main_task_id : String
  menu_link : String
  dish_photos_link : String
  country : String
  status : String
  menu_instructions : String
  request_sent_date : String
  created_by : String
  claimed_time : Option Nat
  scraped_files_data : Option Unit
deriving DecidableEq

/-- `display_id` resolution of line 1334. -/
def displayIdOf (i : Nat) (f : RowFields) : String :=
  if f.mainTaskId ≠ "" then f.mainTaskId
  else if f.rowIdAttr ≠ "" then f.rowIdAttr
  else "Row_Index_" ++ toString (i + 1) ++ "_NoID"

/-- `compatible_domains` of line 1394. -/
def compatible_domains : List String :=
  ["glovoapp.com", "ubereats.com", "wolt.com", "foodora.cz"]

/-- Link filter of lines 1395-1398. -/
def linkCompatible (link : String) : Bool :=
  link ≠ "" && link ≠ "N/A" && compatible_domains.any (fun kw => strIn kw (lowerStr link))

/-- `url_to_scrape_for_case` selection, lines 1393-1398. -/
def urlToScrape (f : RowFields) : Option String :=
  if linkCompatible f.menuLink then some f.menuLink
  else if linkCompatible f.dishPhotosLink then some f.dishPhotosLink
  else none

/-- The `claimed_case_details_to_return` dictionary (lines 1380-1389 and
1402-1404); `now` is the tick `time.strftime` would render. -/
def mkCase (i : Nat) (f : RowFields) (ctry : String) (now : Nat)
    (scrapeData : Option Unit) : Case :=
  { display_id := displayIdOf i f
    row_id_attr := f.rowIdAttr
    user_email := f.userEmail
    account_name := f.accountName
    case_title := f.caseTitle
    main_task_id := f.mainTaskId
    menu_link := f.menuLink
    dish_photos_link := f.dishPhotosLink
    country := ctry
    status := "In Progress (Claimed by Bot for " ++ ctry ++ ")"
    menu_instructions := f.menuInstructions
    request_sent_date := f.requestSentDate
    created_by := f.createdBy
    claimed_time := some now
    scraped_files_data := if (urlToScrape f).isSome then scrapeData else none }

/-- The colleague observation entry of lines 1442-1457. -/
def colleagueEntry (i : Nat) (f : RowFields) (now : Nat) : LogEntry :=
  [("Date", some (.n now)),
   ("Observed Timestamp", some (.n now)),
   ("Claimed Timestamp", none),
   ("Finished Timestamp", none),
   ("Duration (seconds)", none),
   ("Duration (HH:MM:SS)", none),
   ("Case Display ID", some (.s (displayIdOf i f))),
   ("Country", some (.s f.country)),
   ("Assigned User", some (.s f.userEmail)),
   ("Status (Observed)", some (.s f.status)),
   ("Account Name", some (.s f.accountName)),
   ("Case Title", some (.s f.caseTitle)),
   ("Menu Link", some (.s f.menuLink))]

/-- The colleague-logging guard of lines 1436-1440: a non-empty owner other
than `N/A` not containing the bot identity, with an active/terminal status. -/
def colleagueLogOf (i : Nat) (f : RowFields) (now : Nat) : List LogEntry :=
  if f.userEmail ≠ "" && f.userEmail ≠ "N/A" &&
      !(strIn "bot_claimed" (lowerStr f.userEmail)) &&
      (lowerStr f.status = "inprogress" || lowerStr f.status = "escalated" ||
        lowerStr f.status = "completed") then
    [colleagueEntry i f now]
  else []

/-- The claim-eligibility test of lines 1343-1348: the row's country names a
category whose slot was free at pass start and the status reads exactly
`Not Started`.  The owner field is not consulted. -/
def slotFor (ptEx ghEx : Bool) (f : RowFields) : Option String :=
  if f.country = "Portugal" && f.status = "Not Started" && !ptEx then some "Portugal"
  else if f.country = "Ghana" && f.status = "Not Started" && !ghEx then some "Ghana"
  else none

/-- A claim attempt performed during the scan: the row index, its extracted
fields, the category slot it was claimed for, and how the attempt ended. -/
structure ClaimAttempt where
  idx : Nat
  row : RowFields
  slot : String
  outcome : ClaimOutcome
deriving DecidableEq

/-- Whether a claim attempt succeeded. -/
def ClaimOutcome.isSuccess : ClaimOutcome → Bool
  | .success _ => true
  | _ => false

/-- What one pass of `find_and_claim_cases` produces.  `attempts` records
every row on which a claim was attempted; `visited` the indices whose row
body was entered. -/
structure ScanResult where
  status : String
  claimed : Option Case
  attempts : List ClaimAttempt
  visited : List Nat
  colleagueLogs : List LogEntry
deriving DecidableEq

/-- The row loop of lines 1279-1473.  `ptEx`/`ghEx` are
`active_pt_case_exists`/`active_gh_case_exists`, read once before the loop
(lines 1218-1219) and never updated inside it. -/
def scanGo (ptEx ghEx : Bool) (stop : Nat → Bool) (now : Nat) :
    Nat → List RowEvent → ScanResult
  | _, [] =>
    { status := "OK_NO_NEW_CLAIMABLE_SLOT_OR_CASE", claimed := none,
      attempts := [], visited := [], colleagueLogs := [] }
  | i, ev :: rest =>
    if stop i then
      { status := "STOPPED", claimed := none, attempts := [], visited := [],
        colleagueLogs := [] }
    else
      match ev with
      | .notVisible =>
        let r := scanGo ptEx ghEx stop now (i + 1) rest
        { r with visited := i :: r.visited }
      | .staleRow =>
        let r := scanGo ptEx ghEx stop now (i + 1) rest
        { r with visited := i :: r.visited }
      | .timeoutRow =>
        let r := scanGo ptEx ghEx stop now (i + 1) rest
        { r with visited := i :: r.visited }
      | .otherErr =>
        let r := scanGo ptEx ghEx stop now (i + 1) rest
        { r with visited := i :: r.visited }
      | .webdriverErr =>
        { status := "DRIVER_DEAD_ROW_PROC", claimed := none, attempts := [],
          visited := [i], colleagueLogs := [] }
      | .fields f claim =>
        match slotFor ptEx ghEx f with
        | some ctry =>
          match claim with
          | .success scrapeData =>
            { status := "CLAIM_SUCCESS_" ++ upperStr ctry,
              claimed := some (mkCase i f ctry now scrapeData),
              attempts := [⟨i, f, ctry, .success scrapeData⟩], visited := [i],
              colleagueLogs := [] }
          | .wdErr =>
            { status := "DRIVER_DEAD_CLAIM_PROC", claimed := none,
              attempts := [⟨i, f, ctry, .wdErr⟩], visited := [i],
              colleagueLogs := [] }
          | .otherErrNavDead =>
            { status := "DRIVER_DEAD_NAV_BACK_FAIL", claimed := none,
              attempts := [⟨i, f, ctry, .otherErrNavDead⟩], visited := [i],
              colleagueLogs := [] }
          | .otherErrNavOk =>
            let r := scanGo ptEx ghEx stop now (i + 1) rest
            { r with attempts := ⟨i, f, ctry, .otherErrNavOk⟩ :: r.attempts,
                     visited := i :: r.visited,
                     colleagueLogs := colleagueLogOf i f now ++ r.colleagueLogs }
        | none =>
          let r := scanGo ptEx ghEx stop now (i + 1) rest
          { r with visited := i :: r.visited,
                   colleagueLogs := colleagueLogOf i f now ++ r.colleagueLogs }

/-- A message on `data_queue_claimer`. -/
structure QMsg where
  status : String
  claimed : Option Case
deriving DecidableEq

/-- Result of `find_and_claim_cases`, including the queued message
(`none` when an early `return` bypassed the queue put). -/
structure FccResult where
  status : String
  claimed : Option Case
  attempts : List ClaimAttempt
  visited : List Nat
  colleagueLogs : List LogEntry
  queued : Option QMsg
deriving DecidableEq

/-- Lift a scan result to a pass result; the scan exits all reach the final
queue put of lines 1484-1489. -/
def fccOfScan (r : ScanResult) : FccResult :=
  { status := r.status, claimed := r.claimed, attempts := r.attempts,
    visited := r.visited, colleagueLogs := r.colleagueLogs,
    queued := some ⟨r.status, r.claimed⟩ }

/-- An early-exit pass result. -/
def fccBare (status : String) (queued : Option QMsg) : FccResult :=
  { status := status, claimed := none, attempts := [], visited := [],
    colleagueLogs := [], queued := queued }

/-- `find_and_claim_cases` (source lines 1205-1493).  `driverPresent` models
`driver is not None`; `respOk` the responsiveness probe of lines 1226-1233;
the early `return` statements at lines 1223, 1233, 1265 and 1270 bypass the
queue put, so those passes queue nothing. -/
def find_and_claim_cases (driverPresent respOk : Bool)
    (ptStore ghStore : Option Case) (disc : DiscoverResult)
    (stop : Nat → Bool) (now : Nat) : FccResult :=
  if driverPresent = false then
    fccBare "DRIVER_DEAD_PRE_CHECK" (some ⟨"DRIVER_DEAD_PRE_CHECK", none⟩)
  else if ptStore.isSome && ghStore.isSome then
    fccBare "OK_BOTH_SLOTS_FULL" none
  else if respOk = false then
    fccBare "DRIVER_DEAD_RESP_CHECK" none
  else
    match disc with
    | .timeout => fccBare "OK_TIMEOUT_NO_ROWS" (some ⟨"OK_TIMEOUT_NO_ROWS", none⟩)
    | .sessionDead => fccBare "DRIVER_DEAD_ROW_FIND" none
    | .otherError => fccBare "ERROR_UNEXPECTED_FINDING_ROWS" none
    | .found rows =>
      if rows.isEmpty then
        fccBare "OK_NO_ROWS_VISIBLE" (some ⟨"OK_NO_ROWS_VISIBLE", none⟩)
      else fccOfScan (scanGo ptStore.isSome ghStore.isSome stop now 0 rows)

/-! ## The observer queue step (`update_active_cases_display`,
source lines 1992-2014) -/

/-- The statuses on which the observer clears both case stores (line 2006). -/
def claimer_queue_clear_statuses : List String :=
  ["DRIVER_INIT_FAIL", "LOGIN_FAIL", "THREAD_EXCEPTION",
   "DRIVER_DEAD_PRE_CHECK", "DRIVER_DEAD"]

/-- Processing of one queued message by `update_active_cases_display`
(lines 1992-2011): a claim success fills the matching store; one of the
listed failure statuses clears both; anything else leaves both alone. -/
def process_claimer_queue_message (msg : QMsg) (pt gh : Option Case) :
    Option Case × Option Case :=
  if strIn "CLAIM_SUCCESS" msg.status && msg.claimed.isSome then
    match msg.claimed with
    | some c =>
      if c.country = "Portugal" then (some c, gh)
      else if c.country = "Ghana" then (pt, some c)
      else (pt, gh)
    | none => (pt, gh)
  else if msg.status ∈ claimer_queue_clear_statuses then (none, none)
  else (pt, gh)

/-! ## Status-string updates of `run_claimer_loop` (lines 1496-1627) and
`toggle_monitoring` (lines 1925-1962) -/

/-- Error keywords of the guards at lines 1532, 1565, 1568 and 1571. -/
def claimer_status_keywords_loop : List String :=
  ["ERROR", "FAILED", "CRITICAL", "STOP", "DEAD"]

/-- Error keywords of the guard at line 1588. -/
def claimer_status_keywords_exit : List String :=
  ["CRITICAL", "FAIL", "ERROR", "DEAD"]

/-- Error keywords of the guard at line 1611. -/
def claimer_status_keywords_cleanup : List String :=
  ["CRITICAL", "FAIL", "ERROR", "DEAD", "EXCEPTION"]

/-- `any(err_kw in msg.upper() for err_kw in kws)`. -/
def statusHasKw (kws : List String) (s : String) : Bool :=
  kws.any (fun kw => strIn kw (upperStr s))

/-- Routine update at line 1533 (guarded: never overwrites an error text). -/
def run_claimer_status_checking (s : String) (pt gh : Bool) (ts : String) : String :=
  if statusHasKw claimer_status_keywords_loop s then s
  else "Claimer: Checking for cases (PT free: " ++ pyBoolStr pt ++ ", GH free: " ++
    pyBoolStr gh ++ ")... (" ++ ts ++ ")"

/-- Routine update at lines 1566 and 1572 (guarded). -/
def run_claimer_status_both_full (s : String) (ts : String) : String :=
  if statusHasKw claimer_status_keywords_loop s then s
  else "Claimer: Both PT & GH slots full. Waiting... (" ++ ts ++ ")"

/-- Routine update at line 1569 (guarded). -/
def run_claimer_status_no_case (s : String) (findStatus ts : String) : String :=
  if statusHasKw claimer_status_keywords_loop s then s
  else "Claimer: No new suitable case or slot. Status: " ++ findStatus ++ ". (" ++ ts ++ ")"

/-- Fatal update at line 1553 (unconditional). -/
def run_claimer_status_critical (findStatus : String) : String :=
  "Claimer CRITICAL: Fatal issue detected (" ++ findStatus ++ "). Forcing stop."

/-- Update at line 1560 after a successful claim (unconditional). -/
def run_claimer_status_claim_success (country : String) : String :=
  "Claimer: Successfully processed claim for " ++ country ++ "."

/-- The stopped-by-user rewrite at lines 1588-1589, applied after the loop
exits (guarded by the exit keyword list). -/
def run_claimer_status_post_loop (s : String) (stopSet : Bool) : String :=
  if stopSet && !(statusHasKw claimer_status_keywords_exit s) then
    "Claimer: Monitoring stopped by user."
  else s

/-- The cleanup rewrite of the `finally` block, lines 1609-1619. -/
def run_claimer_status_cleanup (s : String) (stopSet : Bool) : String :=
  if stopSet then
    if statusHasKw claimer_status_keywords_cleanup s then
      if strIn "shut down" (lowerStr s) then s else s ++ " Claimer shut down."
    else if !(strIn "stopped by user" (lowerStr s)) && !(strIn "shut down" (lowerStr s)) then
      "Claimer: Monitoring stopped by user." ++ " Claimer shut down."
    else if !(strIn "shut down" (lowerStr s)) then s ++ " Claimer shut down."
    else s
  else if !(strIn "shut down" (lowerStr s)) then s ++ " Claimer shut down."
  else s

/-- The observer's Stop-click update at line 1937 (unconditional overwrite). -/
def toggle_monitoring_stop_status (_s : String) : String :=
  "Claimer: Stop requested... Awaiting thread termination."

/-- Effects of the worker's `finally` block (lines 1600-1626): the driver is
quit whenever one exists, the monitoring flag drops, the stop event ends up
set, and the status text is rewritten by the cleanup rule. -/
structure CleanupEffect where
  driverQuitAttempted : Bool
  monitoringActive : Bool
  stopSetAfter : Bool
  statusAfter : String
deriving DecidableEq

/-- The worker's `finally` block (lines 1600-1626). -/
def run_claimer_cleanup (driverPresent : Bool) (s : String) (stopSet : Bool) :
    CleanupEffect :=
  { driverQuitAttempted := driverPresent
    monitoringActive := false
    stopSetAfter := true
    statusAfter := run_claimer_status_cleanup s stopSet }

/-! ## The sliced inter-cycle sleep (lines 1577-1585)

`wait_time_seconds = max(0.1, 7.0 - loop_duration)` is cut into
`int(wait_time_seconds * 20)` slices of 0.05 s; each iteration checks the
stop flag before sleeping one slice.  `claimer_wait_slices n stop` counts
the slices actually slept when the flag reads `stop k` at the k-th check. -/
def claimer_wait_slices : Nat → (Nat → Bool) → Nat
  | 0, _ => 0
  | Nat.succ k, stop =>
    if stop 0 then 0 else 1 + claimer_wait_slices k (fun j => stop (j + 1))

/-! ## The observer finish action (`finish_case_callback`,
source lines 2062-2116) -/

/-- The finish log entry of lines 2098-2112.  Timestamps are ticks; the
`HH:MM:SS` rendering of the duration is elided (the cell carries the same
second count `format_duration` would render). -/
def finish_entry (c : Case) (now : Nat) : LogEntry :=
  [("Date", some (.n now)),
   ("Observed Timestamp", some (.n now)),
   ("Claimed Timestamp", (c.claimed_time).map (fun t => CellV.n t)),
   ("Finished Timestamp", some (.n now)),
   ("Duration (seconds)", (c.claimed_time).map (fun t => CellV.n (now - t))),
   ("Duration (HH:MM:SS)", (c.claimed_time).map (fun t => CellV.n (now - t))),
   ("Case Display ID", some (.s c.display_id)),
   ("Country", some (.s c.country)),
   ("Assigned User", some (.s "BOT_CLAIMED")),
   ("Status (Observed)", some (.s "Completed")),
   ("Account Name", some (.s c.account_name)),
   ("Case Title", some (.s c.case_title)),
   ("Menu Link", some (.s c.menu_link))]

/-- The shared state the finish action touches: the two category stores and
the persisted log. -/
structure ClaimerUiState where
  pt : Option Case
  gh : Option Case
  log : Option Df
deriving DecidableEq

/-- `finish_case_callback` (lines 2062-2116): clear the named store, log a
Completed entry built from the cleared snapshot; when the named store is
empty nothing happens. -/
def finish_case_callback (countryIndex : String) (now : Nat)
    (st : ClaimerUiState) : ClaimerUiState :=
  if countryIndex = "pt" then
    match st.pt with
    | some c => ⟨none, st.gh, append_to_case_log (finish_entry c now) st.log⟩
    | none => st
  else if countryIndex = "gh" then
    match st.gh with
    | some c => ⟨st.pt, none, append_to_case_log (finish_entry c now) st.log⟩
    | none => st
  else st

/-! ## The leaderboard aggregation (`update_sidebar_reports`,
source lines 2648-2680 daily and 2768-2781 monthly)

Both loops run the same aggregation over the date-filtered rows, after
`astype(str)`, `.str.strip()` on the user, and `.str.strip().str.lower()`
on the status. -/

/-- The three columns the aggregation reads from each log row. -/
structure LbRow where
  caseId : String
  status : String
  user : String
deriving DecidableEq

/-- The column preprocessing of lines 2639-2641 / 2759-2761. -/
def preprocessRow (r : LbRow) : LbRow :=
  ⟨r.caseId, lowerStr r.status.trim, r.user.trim⟩

/-- The skip guard of lines 2656-2657 / 2776-2777: empty owner, `n/a`, or
the automated identity (`BOT_CLAIMED`, case-insensitively). -/
def lb_skip_row (u : String) : Bool :=
  u = "" || lowerStr u = "n/a" || strIn "bot_claimed" (lowerStr u)

/-- The aggregation loop of lines 2652-2664 / 2772-2781: bump the owner's
score on the first `inprogress` sighting of each case id. -/
def lbGo : List LbRow → (String → Nat) → List String → (String → Nat) × List String
  | [], scores, counted => (scores, counted)
  | r :: t, scores, counted =>
    if lb_skip_row r.user then lbGo t scores counted
    else if r.status = "inprogress" && !(counted.contains r.caseId) then
      lbGo t (fun u => if u = r.user then scores u + 1 else scores u)
        (r.caseId :: counted)
    else lbGo t scores counted

/-- The leaderboard computed from the filtered rows: per-owner scores and
the set of counted case ids. -/
def update_sidebar_leaderboard (rows : List LbRow) : (String → Nat) × List String :=
  lbGo (rows.map preprocessRow) (fun _ => 0) []

/-- Modelled from the spec claim wording: a row qualifies when its owner is
not excluded and its status reads `inprogress`. -/
def lb_qualifies (r : LbRow) : Bool :=
  !(lb_skip_row r.user) && r.status = "inprogress"

/-- Modelled from the spec claim wording: the first qualifying occurrence of
each distinct case id, scanning in order. -/
def specFirstQual : List LbRow → List String → List LbRow
  | [], _ => []
  | r :: t, seen =>
    if lb_qualifies r && !(seen.contains r.caseId) then
      r :: specFirstQual t (r.caseId :: seen)
    else specFirstQual t seen

/-- Modelled from the spec claim wording: the number of distinct case ids
whose first qualifying (in-progress, non-excluded) occurrence belongs to
owner `u`. -/
def spec_leaderboard_score (rows : List LbRow) (u : String) : Nat :=
  ((specFirstQual (rows.map preprocessRow) []).filter (fun r => r.user = u)).length

/-! ## Concrete instances used by scenario theorems and witnesses -/

/-- A claimable, unowned Portugal row (scenario row 1). -/
def rowA : RowFields :=
  { mainTaskId := "PT-001", rowIdAttr := "row1", status := "Not Started",
    country := "Portugal", userEmail := "N/A", accountName := "Account A",
    caseTitle := "Title A", menuLink := "N/A", dishPhotosLink := "N/A",
    menuInstructions := "N/A", requestSentDate := "N/A", createdBy := "N/A" }

/-- A claimable, unowned Ghana row (scenario row 2). -/
def rowB : RowFields :=
  { mainTaskId := "GH-001", rowIdAttr := "row2", status := "Not Started",
    country := "Ghana", userEmail := "N/A", accountName := "Account B",
    caseTitle := "Title B", menuLink := "N/A", dishPhotosLink := "N/A",
    menuInstructions := "N/A", requestSentDate := "N/A", createdBy := "N/A" }

/-- A Portugal row already claimed by a colleague (scenario row 3). -/
def rowC : RowFields :=
  { mainTaskId := "PT-002", rowIdAttr := "row3", status := "InProgress",
    country := "Portugal", userEmail := "colleague@example.com",
    accountName := "Account C", caseTitle := "Title C", menuLink := "N/A",
    dishPhotosLink := "N/A", menuInstructions := "N/A",
    requestSentDate := "N/A", createdBy := "N/A" }

/-- A `Not Started` Portugal row that carries an owner identity. -/
def rowOwned : RowFields :=
  { mainTaskId := "PT-003", rowIdAttr := "row4", status := "Not Started",
    country := "Portugal", userEmail := "colleague@example.com",
    accountName := "Account D", caseTitle := "Title D", menuLink := "N/A",
    dishPhotosLink := "N/A", menuInstructions := "N/A",
    requestSentDate := "N/A", createdBy := "N/A" }

/-- A claimed case occupying the Portugal slot in counterexamples. -/
def caseX : Case :=
  mkCase 0 rowA "Portugal" 0 none

/-- An entry omitting `Duration (seconds)` (and other canonical columns). -/
def entryOmitDuration : LogEntry :=
  [("Date", some (.n 1)), ("Case Display ID", some (.s "PT-001")),
   ("Country", some (.s "Portugal"))]

/-- Example leaderboard rows: case C1 reaches in-progress under two owners,
case C2 only under the bot identity, case C3 never reaches in-progress. -/
def lbRowsExample : List LbRow :=
  [⟨"C1", " InProgress ", "alice@example.com"⟩,
   ⟨"C1", "inprogress", "bob@example.com"⟩,
   ⟨"C2", "inprogress", "BOT_CLAIMED bot"⟩,
   ⟨"C3", "completed", "alice@example.com"⟩]

/-! ## Theorems -/

/-! ### Activity Log lemmas -/

theorem getCol_map (cols : List String) (f : String → Option CellV) (c : String)
    (h : c ∈ cols) : getCol cols (cols.map f) c = f c := by
  induction cols with
  | nil => cases h
  | cons c0 ct ih =>
    simp only [List.map_cons, getCol]
    by_cases hc : c0 = c
    · simp [hc]
    · have hmem : c ∈ ct := by
        rcases List.mem_cons.mp h with h0 | h0
        · exact absurd h0.symm hc
        · exact h0
      simp [hc, ih hmem]

theorem reindex_fixes_row (f : String → Option CellV) :
    LOG_COLUMNS_DEFINITION.map
      (fun c => getCol LOG_COLUMNS_DEFINITION (LOG_COLUMNS_DEFINITION.map f) c) =
    LOG_COLUMNS_DEFINITION.map f :=
  List.map_congr_left (fun c hc => getCol_map LOG_COLUMNS_DEFINITION f c hc)

theorem addCols_id_of_sub (cs : List String) (df : Df)
    (h : ∀ c ∈ cs, c ∈ df.cols) : addCols df cs = df := by
  induction cs generalizing df with
  | nil => rfl
  | cons c ct ih =>
    simp only [addCols]
    have hid : addCol df c = df := by simp [addCol, h c (by simp)]
    rw [hid]
    exact ih df (fun x hx => h x (by simp [hx]))

theorem addMissingCanonCols_canon (rows : List (List (Option CellV))) :
    addMissingCanonCols ⟨LOG_COLUMNS_DEFINITION, rows⟩ = ⟨LOG_COLUMNS_DEFINITION, rows⟩ :=
  addCols_id_of_sub LOG_COLUMNS_DEFINITION _ (fun _ hc => hc)

theorem reindexCanon_of_canonical (rows : List (List (Option CellV)))
    (h : ∀ r ∈ rows, ∃ f, r = LOG_COLUMNS_DEFINITION.map f) :
    reindexCanon ⟨LOG_COLUMNS_DEFINITION, rows⟩ = ⟨LOG_COLUMNS_DEFINITION, rows⟩ := by
  unfold reindexCanon
  simp only [Df.mk.injEq, true_and]
  have hfix : ∀ r ∈ rows, LOG_COLUMNS_DEFINITION.map (getCol LOG_COLUMNS_DEFINITION r) = r := by
    intro r hr
    obtain ⟨f, rfl⟩ := h r hr
    exact reindex_fixes_row f
  have hcongr :
      rows.map (fun r => LOG_COLUMNS_DEFINITION.map (getCol LOG_COLUMNS_DEFINITION r)) =
        rows.map (fun r => r) := List.map_congr_left hfix
  rw [hcongr]
  simp

theorem reindexCanon_cols (df : Df) : (reindexCanon df).cols = LOG_COLUMNS_DEFINITION := rfl

theorem reindexCanon_rows (df : Df) :
    (reindexCanon df).rows =
      df.rows.map (fun r => LOG_COLUMNS_DEFINITION.map (getCol df.cols r)) := rfl

theorem get_case_log_df_some (df : Df) :
    get_case_log_df (some df) = reindexCanon (addMissingCanonCols df) := rfl

theorem get_case_log_df_none : get_case_log_df none = ⟨LOG_COLUMNS_DEFINITION, []⟩ := rfl

theorem get_case_log_df_cols (store : Option Df) :
    (get_case_log_df store).cols = LOG_COLUMNS_DEFINITION := by
  cases store with
  | none => rw [get_case_log_df_none]
  | some df => rw [get_case_log_df_some, reindexCanon_cols]

theorem get_case_log_df_rows_canonical (store : Option Df) :
    ∀ r ∈ (get_case_log_df store).rows, ∃ f, r = LOG_COLUMNS_DEFINITION.map f := by
  cases store with
  | none =>
    intro r hr
    rw [get_case_log_df_none] at hr
    exact absurd hr (List.not_mem_nil r)
  | some df =>
    intro r hr
    rw [get_case_log_df_some, reindexCanon_rows, List.mem_map] at hr
    obtain ⟨r0, -, rfl⟩ := hr
    exact ⟨getCol (addMissingCanonCols df).cols r0, rfl⟩

theorem reindex_addMissing_get (store : Option Df) :
    reindexCanon (addMissingCanonCols (get_case_log_df store)) = get_case_log_df store := by
  have hc := get_case_log_df_cols store
  have hr := get_case_log_df_rows_canonical store
  rcases hg : get_case_log_df store with ⟨cols, rows⟩
  rw [hg] at hc hr
  simp only at hc hr
  subst hc
  rw [addMissingCanonCols_canon, reindexCanon_of_canonical rows hr]

theorem getCol_append (cols1 : List String) (row1 : List (Option CellV))
    (cols2 : List String) (row2 : List (Option CellV)) (c : String)
    (h : cols1.length = row1.length) :
    getCol (cols1 ++ cols2) (row1 ++ row2) c =
      if c ∈ cols1 then getCol cols1 row1 c else getCol cols2 row2 c := by
  induction cols1 generalizing row1 with
  | nil =>
    cases row1 with
    | nil => simp [getCol]
    | cons v vs => simp at h
  | cons c0 cs ih =>
    cases row1 with
    | nil => simp at h
    | cons v vs =>
      have h' : cs.length = vs.length := by
        simp only [List.length_cons] at h
        omega
      by_cases hc : c0 = c
      · subst hc
        simp [getCol, List.mem_cons]
      · have hne : ¬ c = c0 := fun hcc => hc hcc.symm
        simp only [List.cons_append, getCol, if_neg hc, List.append_eq]
        rw [ih vs h']
        simp [List.mem_cons, hne, hc]

theorem getCol_replicate_none (xs : List String) (n : Nat) (c : String) :
    getCol xs (List.replicate n (none : Option CellV)) c = none := by
  induction xs generalizing n with
  | nil => rfl
  | cons x xt ih =>
    cases n with
    | zero => rfl
    | succ m =>
      simp only [List.replicate_succ, getCol]
      by_cases hc : x = c
      · simp [hc]
      · simp [hc, ih m]

theorem getCol_entry (e : LogEntry) (c : String) :
    getCol (e.map Prod.fst) (e.map Prod.snd) c = (entryLookup e c).join := by
  induction e with
  | nil => rfl
  | cons kv t ih =>
    obtain ⟨k, v⟩ := kv
    simp only [List.map_cons, getCol, entryLookup]
    by_cases hk : k = c
    · simp [hk]
    · simp [hk, ih]

theorem entryLookup_none_of_not_mem (e : LogEntry) (c : String)
    (h : ¬ c ∈ e.map Prod.fst) : entryLookup e c = none := by
  induction e with
  | nil => rfl
  | cons kv t ih =>
    obtain ⟨k, v⟩ := kv
    simp only [List.map_cons, List.mem_cons, not_or] at h
    simp only [entryLookup]
    rw [if_neg (fun hk : k = c => h.1 hk.symm)]
    exact ih h.2

theorem addCols_shape (cs : List String) (df : Df) :
    ∃ extra : List String,
      addCols df cs =
        ⟨df.cols ++ extra,
         df.rows.map (fun r => r ++ List.replicate extra.length none)⟩ := by
  induction cs generalizing df with
  | nil =>
    refine ⟨[], ?_⟩
    simp [addCols]
  | cons c ct ih =>
    simp only [addCols]
    by_cases h : c ∈ df.cols
    · have haddid : addCol df c = df := by simp [addCol, h]
      rw [haddid]
      exact ih df
    · have hadd : addCol df c = ⟨df.cols ++ [c], df.rows.map (fun r => r ++ [none])⟩ := by
        simp [addCol, h]
      rw [hadd]
      obtain ⟨extra, hx⟩ := ih ⟨df.cols ++ [c], df.rows.map (fun r => r ++ [none])⟩
      refine ⟨c :: extra, ?_⟩
      rw [hx]
      simp only [Df.mk.injEq]
      constructor
      · simp [List.append_assoc]
      · simp only [List.map_map, List.length_cons, List.replicate_succ]
        apply List.map_congr_left
        intro r _
        simp [List.append_assoc]

theorem reindexCanon_single (C : List String) (R : List (Option CellV)) :
    reindexCanon ⟨C, [R]⟩ =
      ⟨LOG_COLUMNS_DEFINITION, [LOG_COLUMNS_DEFINITION.map (getCol C R)]⟩ := rfl

theorem entry_reindex (e : LogEntry) :
    reindexCanon (addMissingCanonCols (dfFromEntry e)) =
      ⟨LOG_COLUMNS_DEFINITION, [entryRow e]⟩ := by
  obtain ⟨extra, hx⟩ := addCols_shape LOG_COLUMNS_DEFINITION (dfFromEntry e)
  have hcols : (dfFromEntry e).cols = e.map Prod.fst := rfl
  have hrows : (dfFromEntry e).rows = [e.map Prod.snd] := rfl
  have hrow :
      LOG_COLUMNS_DEFINITION.map
        (getCol (e.map Prod.fst ++ extra)
          (e.map Prod.snd ++ List.replicate extra.length none)) = entryRow e := by
    unfold entryRow
    apply List.map_congr_left
    intro c _
    rw [getCol_append (e.map Prod.fst) (e.map Prod.snd) extra
          (List.replicate extra.length none) c (by simp)]
    by_cases hc : c ∈ e.map Prod.fst
    · rw [if_pos hc, getCol_entry]
    · rw [if_neg hc, getCol_replicate_none, entryLookup_none_of_not_mem e c hc]
      rfl
  show reindexCanon (addCols (dfFromEntry e) LOG_COLUMNS_DEFINITION) = _
  rw [hx, hcols, hrows]
  rw [show ([e.map Prod.snd].map (fun r => r ++ List.replicate extra.length (none : Option CellV))) =
        [e.map Prod.snd ++ List.replicate extra.length none] from rfl]
  rw [reindexCanon_single, hrow]

theorem dfConcat_canon (r1 r2 : List (List (Option CellV)))
    (h1 : ∀ r ∈ r1, ∃ f, r = LOG_COLUMNS_DEFINITION.map f)
    (h2 : ∀ r ∈ r2, ∃ f, r = LOG_COLUMNS_DEFINITION.map f) :
    dfConcat ⟨LOG_COLUMNS_DEFINITION, r1⟩ ⟨LOG_COLUMNS_DEFINITION, r2⟩ =
      ⟨LOG_COLUMNS_DEFINITION, r1 ++ r2⟩ := by
  unfold dfConcat
  have hfilter :
      LOG_COLUMNS_DEFINITION.filter (fun c => !(decide (c ∈ LOG_COLUMNS_DEFINITION))) = [] := by
    decide
  simp only [hfilter, List.append_nil, Df.mk.injEq, true_and]
  have fix1 : ∀ r ∈ r1, LOG_COLUMNS_DEFINITION.map (getCol LOG_COLUMNS_DEFINITION r) = r := by
    intro r hr
    obtain ⟨f, rfl⟩ := h1 r hr
    exact reindex_fixes_row f
  have fix2 : ∀ r ∈ r2, LOG_COLUMNS_DEFINITION.map (getCol LOG_COLUMNS_DEFINITION r) = r := by
    intro r hr
    obtain ⟨f, rfl⟩ := h2 r hr
    exact reindex_fixes_row f
  rw [List.map_congr_left fix1, List.map_congr_left fix2]
  simp

theorem append_read (e : LogEntry) (store : Option Df) :
    get_case_log_df (append_to_case_log e store) =
      ⟨LOG_COLUMNS_DEFINITION, (get_case_log_df store).rows ++ [entryRow e]⟩ := by
  unfold append_to_case_log
  dsimp only
  rw [reindex_addMissing_get, entry_reindex]
  have hc := get_case_log_df_cols store
  have hr := get_case_log_df_rows_canonical store
  rcases hg : get_case_log_df store with ⟨cols, rows⟩
  rw [hg] at hc hr
  simp only at hc hr
  subst hc
  have hrowE : ∀ r ∈ [entryRow e], ∃ f, r = LOG_COLUMNS_DEFINITION.map f := by
    intro r hrm
    simp only [List.mem_singleton] at hrm
    exact ⟨fun c => (entryLookup e c).join, hrm⟩
  rw [dfConcat_canon rows [entryRow e] hr hrowE, get_case_log_df_some,
    addMissingCanonCols_canon, reindexCanon_of_canonical]
  intro r hrm
  rcases List.mem_append.mp hrm with hm | hm
  · exact hr r hm
  · exact hrowE r hm

/-! ### C4: the Activity Log is append-only -/

/-- C4: for every prior log state and every entry `e`, after `append(e)`
succeeds, reading the log returns exactly the prior contents (same rows,
same order, reindexed to the canonical column order) followed by the single
new entry `e` projected onto the canonical columns; no existing row is
mutated or deleted. -/
theorem activity_log_append_only (store : Option Df) (e : LogEntry) :
    get_case_log_df (append_to_case_log e store) =
      ⟨LOG_COLUMNS_DEFINITION, (get_case_log_df store).rows ++ [entryRow e]⟩ :=
  append_read e store

/-! ### C5: omitted entry fields persist as NA, supplied ones intact -/

/-- C5: for every entry dictionary passed to append, the persisted row
carries the full canonical column set; every canonical column the entry
omits is stored empty (`NA`), and every field the entry supplies is stored
intact with its given value. -/
theorem append_omitted_fields_empty (store : Option Df) (e : LogEntry) :
    (get_case_log_df (append_to_case_log e store)).cols = LOG_COLUMNS_DEFINITION ∧
    ∃ r, (get_case_log_df (append_to_case_log e store)).rows.getLast? = some r ∧
      r.length = LOG_COLUMNS_DEFINITION.length ∧
      (∀ c, c ∈ LOG_COLUMNS_DEFINITION → entryLookup e c = none →
        getCol LOG_COLUMNS_DEFINITION r c = none) ∧
      (∀ c v, c ∈ LOG_COLUMNS_DEFINITION → entryLookup e c = some v →
        getCol LOG_COLUMNS_DEFINITION r c = v) := by
  rw [append_read]
  have key : ∀ c ∈ LOG_COLUMNS_DEFINITION,
      getCol LOG_COLUMNS_DEFINITION (entryRow e) c = (entryLookup e c).join := by
    intro c hc
    unfold entryRow
    rw [getCol_map _ _ _ hc]
  refine ⟨rfl, entryRow e, List.getLast?_concat _, by simp [entryRow], ?_, ?_⟩
  · intro c hc hnone
    rw [key c hc, hnone]
    rfl
  · intro c v hc hv
    rw [key c hc, hv]
    rfl

/-- Witness for C5 at a concrete entry omitting `Duration (seconds)`. -/
theorem append_omitted_fields_empty_witness :
    ∃ r, (get_case_log_df (append_to_case_log entryOmitDuration none)).rows.getLast? = some r ∧
      getCol LOG_COLUMNS_DEFINITION r "Duration (seconds)" = none ∧
      getCol LOG_COLUMNS_DEFINITION r "Case Display ID" = some (CellV.s "PT-001") := by
  obtain ⟨-, r, hlast, -, hna, hval⟩ := append_omitted_fields_empty none entryOmitDuration
  exact ⟨r, hlast, hna "Duration (seconds)" (by decide) rfl,
    hval "Case Display ID" (some (CellV.s "PT-001")) (by decide) rfl⟩

/-! ### Scan lemmas for C1 and C3 -/

theorem slotFor_eq_some (ptEx ghEx : Bool) (f : RowFields) (c : String)
    (h : slotFor ptEx ghEx f = some c) :
    (c = "Portugal" ∧ f.country = "Portugal" ∧ f.status = "Not Started" ∧ ptEx = false) ∨
    (c = "Ghana" ∧ f.country = "Ghana" ∧ f.status = "Not Started" ∧ ghEx = false) := by
  unfold slotFor at h
  split at h
  case isTrue h1 =>
    simp only [Bool.and_eq_true, decide_eq_true_eq, Bool.not_eq_true'] at h1
    exact Or.inl ⟨(Option.some.inj h).symm, h1.1.1, h1.1.2, h1.2⟩
  case isFalse h1 =>
    split at h
    case isTrue h2 =>
      simp only [Bool.and_eq_true, decide_eq_true_eq, Bool.not_eq_true'] at h2
      exact Or.inr ⟨(Option.some.inj h).symm, h2.1.1, h2.1.2, h2.2⟩
    case isFalse h2 => exact absurd h (by simp)

theorem scanGo_attempts_cond (ptEx ghEx : Bool) (stop : Nat → Bool) (now : Nat) :
    ∀ (rows : List RowEvent) (i : Nat) (a : ClaimAttempt),
      a ∈ (scanGo ptEx ghEx stop now i rows).attempts →
      (a.slot = "Portugal" ∧ a.row.country = "Portugal" ∧
        a.row.status = "Not Started" ∧ ptEx = false) ∨
      (a.slot = "Ghana" ∧ a.row.country = "Ghana" ∧
        a.row.status = "Not Started" ∧ ghEx = false) := by
  intro rows
  induction rows with
  | nil => intro i a ha; simp [scanGo] at ha
  | cons ev rest ih =>
    intro i a ha
    rw [scanGo.eq_def] at ha
    dsimp only at ha
    by_cases hstop : stop i = true
    · rw [if_pos hstop] at ha
      simp at ha
    · rw [if_neg hstop] at ha
      cases ev with
      | notVisible => exact ih (i + 1) a (by dsimp only at ha; exact ha)
      | staleRow => exact ih (i + 1) a (by dsimp only at ha; exact ha)
      | timeoutRow => exact ih (i + 1) a (by dsimp only at ha; exact ha)
      | otherErr => exact ih (i + 1) a (by dsimp only at ha; exact ha)
      | webdriverErr => dsimp only at ha; simp at ha
      | fields f claim =>
        dsimp only at ha
        rcases hslot : slotFor ptEx ghEx f with _ | ctry
        · rw [hslot] at ha
          dsimp only at ha
          exact ih (i + 1) a ha
        · rw [hslot] at ha
          have hcond := slotFor_eq_some ptEx ghEx f ctry hslot
          cases claim with
          | success d =>
            dsimp only at ha
            rw [List.mem_singleton] at ha
            subst ha
            exact hcond
          | wdErr =>
            dsimp only at ha
            rw [List.mem_singleton] at ha
            subst ha
            exact hcond
          | otherErrNavDead =>
            dsimp only at ha
            rw [List.mem_singleton] at ha
            subst ha
            exact hcond
          | otherErrNavOk =>
            dsimp only at ha
            rw [List.mem_cons] at ha
            rcases ha with rfl | ha
            · exact hcond
            · exact ih (i + 1) a ha

theorem scanGo_success_count (ptEx ghEx : Bool) (stop : Nat → Bool) (now : Nat) :
    ∀ (rows : List RowEvent) (i : Nat),
      ((scanGo ptEx ghEx stop now i rows).attempts.filter
        (fun a => a.outcome.isSuccess)).length ≤ 1 := by
  intro rows
  induction rows with
  | nil => intro i; simp [scanGo]
  | cons ev rest ih =>
    intro i
    rw [scanGo.eq_def]
    dsimp only
    by_cases hstop : stop i = true
    · rw [if_pos hstop]
      simp
    · rw [if_neg hstop]
      cases ev with
      | notVisible => dsimp only; exact ih (i + 1)
      | staleRow => dsimp only; exact ih (i + 1)
      | timeoutRow => dsimp only; exact ih (i + 1)
      | otherErr => dsimp only; exact ih (i + 1)
      | webdriverErr => simp
      | fields f claim =>
        dsimp only
        rcases hslot : slotFor ptEx ghEx f with _ | ctry
        · dsimp only
          exact ih (i + 1)
        · dsimp only
          cases claim with
          | success d => simp [ClaimOutcome.isSuccess]
          | wdErr => simp [ClaimOutcome.isSuccess]
          | otherErrNavDead => simp [ClaimOutcome.isSuccess]
          | otherErrNavOk =>
            dsimp only
            simpa [ClaimOutcome.isSuccess] using ih (i + 1)

theorem find_and_claim_attempts_cases (dp ro : Bool) (pt gh : Option Case)
    (disc : DiscoverResult) (stop : Nat → Bool) (now : Nat) :
    (find_and_claim_cases dp ro pt gh disc stop now).attempts = [] ∨
    ((pt.isSome && gh.isSome) = false ∧
      ∃ rows, disc = .found rows ∧
        (find_and_claim_cases dp ro pt gh disc stop now).attempts =
          (scanGo pt.isSome gh.isSome stop now 0 rows).attempts) := by
  unfold find_and_claim_cases
  by_cases h1 : dp = false
  · rw [if_pos h1]; left; rfl
  · rw [if_neg h1]
    by_cases h2 : (pt.isSome && gh.isSome) = true
    · rw [if_pos h2]; left; rfl
    · rw [if_neg h2]
      simp only [Bool.not_eq_true] at h2
      by_cases h3 : ro = false
      · rw [if_pos h3]; left; rfl
      · rw [if_neg h3]
        cases disc with
        | timeout => left; rfl
        | sessionDead => left; rfl
        | otherError => left; rfl
        | found rows =>
          dsimp only
          by_cases h4 : rows.isEmpty = true
          · rw [if_pos h4]; left; rfl
          · rw [if_neg h4]; right; exact ⟨h2, rows, rfl, rfl⟩

/-! ### C1: when is a claim attempted -/

/-- C1 (amended): for every monitoring pass and every row scanned, the
coordinator attempts a claim on the row exactly when the row's category
(Portugal or Ghana) had a free CategorySlot at pass start and the row's
observed status equals the claimable value `Not Started`; the assigned
owner is extracted but not consulted by the claim condition. -/
theorem find_and_claim_attempt_condition (dp ro : Bool) (pt gh : Option Case)
    (disc : DiscoverResult) (stop : Nat → Bool) (now : Nat) (a : ClaimAttempt)
    (ha : a ∈ (find_and_claim_cases dp ro pt gh disc stop now).attempts) :
    (a.slot = "Portugal" ∧ a.row.country = "Portugal" ∧
      a.row.status = "Not Started" ∧ pt = none) ∨
    (a.slot = "Ghana" ∧ a.row.country = "Ghana" ∧
      a.row.status = "Not Started" ∧ gh = none) := by
  rcases find_and_claim_attempts_cases dp ro pt gh disc stop now with
    hnil | ⟨hfree, rows, rfl, heq⟩
  · rw [hnil] at ha
    exact absurd ha (List.not_mem_nil a)
  · rw [heq] at ha
    rcases scanGo_attempts_cond pt.isSome gh.isSome stop now rows 0 a ha with
      ⟨hA, hB, hC, hD⟩ | ⟨hA, hB, hC, hD⟩
    · refine Or.inl ⟨hA, hB, hC, ?_⟩
      cases pt with
      | none => rfl
      | some c => simp at hD
    · refine Or.inr ⟨hA, hB, hC, ?_⟩
      cases gh with
      | none => rfl
      | some c => simp at hD

/-- Witness for C1 at a concrete pass with one claimable row. -/
theorem find_and_claim_attempt_condition_witness :
    ((⟨0, rowA, "Portugal", ClaimOutcome.success none⟩ : ClaimAttempt).slot = "Portugal" ∧
      rowA.country = "Portugal" ∧ rowA.status = "Not Started" ∧
      (none : Option Case) = none) ∨
    ((⟨0, rowA, "Portugal", ClaimOutcome.success none⟩ : ClaimAttempt).slot = "Ghana" ∧
      rowA.country = "Ghana" ∧ rowA.status = "Not Started" ∧
      (none : Option Case) = none) :=
  find_and_claim_attempt_condition true true none none
    (.found [.fields rowA (.success none)]) (fun _ => false) 0
    ⟨0, rowA, "Portugal", .success none⟩ (by decide)

/-- C1 counterexample: a scanned row that carries an owner identity
(`colleague@example.com`), with status `Not Started` and a free Portugal
slot, is claimed — the owner field does not prevent the attempt. -/
theorem owned_row_claimed_counterexample :
    (find_and_claim_cases true true none none
        (.found [.fields rowOwned (.success none)]) (fun _ => false) 0).attempts =
      [⟨0, rowOwned, "Portugal", .success none⟩] ∧
    ((find_and_claim_cases true true none none
        (.found [.fields rowOwned (.success none)]) (fun _ => false) 0).claimed).isSome
      = true ∧
    rowOwned.userEmail = "colleague@example.com" ∧
    rowOwned.userEmail ≠ "" ∧ rowOwned.userEmail ≠ "N/A" := by decide

/-! ### C3: at most one claim per cycle -/

/-- C3: in any single monitoring pass at most one claim succeeds; in the
scenario with rows [Portugal claimable/unowned, Ghana claimable/unowned,
Portugal claimed/owned-by-another] and both slots free, only the first row
is claimed, `CLAIM_SUCCESS_PORTUGAL` is queued, the third row is never
processed (visited = [0]), and applying the queued message leaves the Ghana
slot free. -/
theorem single_claim_per_cycle :
    (∀ (dp ro : Bool) (pt gh : Option Case) (disc : DiscoverResult)
        (stop : Nat → Bool) (now : Nat),
      ((find_and_claim_cases dp ro pt gh disc stop now).attempts.filter
        (fun a => a.outcome.isSuccess)).length ≤ 1) ∧
    find_and_claim_cases true true none none
        (.found [.fields rowA (.success none), .fields rowB (.success none),
                 .fields rowC (.success none)]) (fun _ => false) 0 =
      { status := "CLAIM_SUCCESS_PORTUGAL", claimed := some caseX,
        attempts := [⟨0, rowA, "Portugal", .success none⟩], visited := [0],
        colleagueLogs := [],
        queued := some ⟨"CLAIM_SUCCESS_PORTUGAL", some caseX⟩ } ∧
    process_claimer_queue_message ⟨"CLAIM_SUCCESS_PORTUGAL", some caseX⟩ none none =
      (some caseX, none) := by
  refine ⟨?_, by decide, by decide⟩
  intro dp ro pt gh disc stop now
  rcases find_and_claim_attempts_cases dp ro pt gh disc stop now with
    hnil | ⟨-, rows, -, heq⟩
  · rw [hnil]; simp
  · rw [heq]
    exact scanGo_success_count pt.isSome gh.isSome stop now rows 0

/-! ### C2: what shutdown actually clears -/

/-- C2 counterexample: a `SessionDeadError` raised while discovering rows
makes `find_and_claim_cases` return `DRIVER_DEAD_ROW_FIND` through the early
`return` that bypasses the queue put — no event is emitted — and even a
message with that status would not clear the stores: a claimed Portugal case
survives the shutdown. -/
theorem stale_claim_survives_session_death :
    find_and_claim_cases true true (some caseX) none .sessionDead
        (fun _ => false) 0 = fccBare "DRIVER_DEAD_ROW_FIND" none ∧
    (fccBare "DRIVER_DEAD_ROW_FIND" none).queued = none ∧
    process_claimer_queue_message ⟨"DRIVER_DEAD_ROW_FIND", none⟩ (some caseX) none =
      (some caseX, none) ∧
    some caseX ≠ (none : Option Case) := by decide

/-- C2 (amended): when the worker terminates, its `finally` block always
quits the driver (releasing the session), drops the monitoring flag, and
sets the stop event; the observer clears both CategorySlots only when it
dequeues a message whose status is one of `DRIVER_INIT_FAIL`, `LOGIN_FAIL`,
`THREAD_EXCEPTION`, `DRIVER_DEAD_PRE_CHECK`, `DRIVER_DEAD`.  A
`SessionDeadError` during row discovery instead yields status
`DRIVER_DEAD_ROW_FIND`, returned without queueing any event, and a message
with that status leaves both slots unchanged, so a stale claim survives
until the next monitoring start clears the stores. -/
theorem shutdown_clearing_characterised :
    (∀ (dp : Bool) (s : String) (b : Bool),
      (run_claimer_cleanup dp s b).driverQuitAttempted = dp ∧
      (run_claimer_cleanup dp s b).monitoringActive = false ∧
      (run_claimer_cleanup dp s b).stopSetAfter = true) ∧
    (∀ st, st ∈ claimer_queue_clear_statuses →
      ∀ (d : Option Case) (pt gh : Option Case),
        process_claimer_queue_message ⟨st, d⟩ pt gh = (none, none)) ∧
    (∀ (pt gh : Option Case) (stop : Nat → Bool) (now : Nat),
      pt = none ∨ gh = none →
      find_and_claim_cases true true pt gh .sessionDead stop now =
        fccBare "DRIVER_DEAD_ROW_FIND" none) ∧
    (∀ (d : Option Case) (pt gh : Option Case),
      process_claimer_queue_message ⟨"DRIVER_DEAD_ROW_FIND", d⟩ pt gh = (pt, gh)) ∧
    "DRIVER_DEAD_ROW_FIND" ∉ claimer_queue_clear_statuses := by
  refine ⟨fun dp s b => ⟨rfl, rfl, rfl⟩, ?_, ?_, ?_, by decide⟩
  · intro st hst d pt gh
    fin_cases hst <;> rfl
  · intro pt gh stop now h
    rcases h with rfl | rfl
    · rfl
    · simp [find_and_claim_cases, Bool.and_false]
  · intro d pt gh
    rfl

/-- Witness for C2 (amended) at concrete inputs. -/
theorem shutdown_clearing_witness :
    process_claimer_queue_message ⟨"DRIVER_DEAD", none⟩ (some caseX) (some caseX) =
      (none, none) ∧
    find_and_claim_cases true true (some caseX) none .sessionDead
        (fun _ => false) 5 = fccBare "DRIVER_DEAD_ROW_FIND" none := by
  obtain ⟨-, hclear, hdead, -, -⟩ := shutdown_clearing_characterised
  exact ⟨hclear "DRIVER_DEAD" (by decide) none (some caseX) (some caseX),
    hdead (some caseX) none (fun _ => false) 5 (Or.inr rfl)⟩

/-! ### C6: extract_field contract -/

/-- C6: `extract_field_data` returns the default `"Not Specified"` when the
row handle is not a WebElement, when the column or span is absent, or when
the text strips to empty; it re-raises (never swallows) stale-row and
session-dead (WebDriver) errors arising at any step; and any other
exception during extraction yields the default instead of propagating. -/
theorem extract_field_data_contract :
    (∀ row : RowFieldAccess, row.isWebElement = false →
      extract_field_data row "Not Specified" = .ok "Not Specified") ∧
    (∀ row, row.isWebElement = true → row.columnDivCount = .ok 0 →
      extract_field_data row "Not Specified" = .ok "Not Specified") ∧
    (∀ row n, row.isWebElement = true → row.columnDivCount = .ok n → n ≠ 0 →
      row.spanCount = .ok 0 →
      extract_field_data row "Not Specified" = .ok "Not Specified") ∧
    (∀ row n m raw, row.isWebElement = true → row.columnDivCount = .ok n → n ≠ 0 →
      row.spanCount = .ok m → m ≠ 0 → row.textRead = .ok raw → raw.trim = "" →
      extract_field_data row "Not Specified" = .ok "Not Specified") ∧
    (∀ row, row.isWebElement = true → row.columnDivCount = .stale →
      extract_field_data row "Not Specified" = .error .staleElement) ∧
    (∀ row n, row.isWebElement = true → row.columnDivCount = .ok n → n ≠ 0 →
      row.spanCount = .stale →
      extract_field_data row "Not Specified" = .error .staleElement) ∧
    (∀ row n m, row.isWebElement = true → row.columnDivCount = .ok n → n ≠ 0 →
      row.spanCount = .ok m → m ≠ 0 → row.textRead = .stale →
      extract_field_data row "Not Specified" = .error .staleElement) ∧
    (∀ row, row.isWebElement = true → row.columnDivCount = .webdriver →
      extract_field_data row "Not Specified" = .error .webDriver) ∧
    (∀ row n, row.isWebElement = true → row.columnDivCount = .ok n → n ≠ 0 →
      row.spanCount = .webdriver →
      extract_field_data row "Not Specified" = .error .webDriver) ∧
    (∀ row n m, row.isWebElement = true → row.columnDivCount = .ok n → n ≠ 0 →
      row.spanCount = .ok m → m ≠ 0 → row.textRead = .webdriver →
      extract_field_data row "Not Specified" = .error .webDriver) ∧
    (∀ row, row.isWebElement = true → row.columnDivCount = .other →
      extract_field_data row "Not Specified" = .ok "Not Specified") ∧
    (∀ row n, row.isWebElement = true → row.columnDivCount = .ok n → n ≠ 0 →
      row.spanCount = .other →
      extract_field_data row "Not Specified" = .ok "Not Specified") ∧
    (∀ row n m, row.isWebElement = true → row.columnDivCount = .ok n → n ≠ 0 →
      row.spanCount = .ok m → m ≠ 0 → row.textRead = .other →
      extract_field_data row "Not Specified" = .ok "Not Specified") := by
  refine ⟨?_, ?_, ?_, ?_, ?_, ?_, ?_, ?_, ?_, ?_, ?_, ?_, ?_⟩ <;>
    first
    | (intro row hw hd
       rcases row with ⟨w, dc, sc, tr⟩
       simp only at hw hd
       subst hw
       subst hd
       simp [extract_field_data, handleStep])
    | (intro row n hw hd hn hs
       rcases row with ⟨w, dc, sc, tr⟩
       simp only at hw hd hs
       subst hw
       subst hd
       subst hs
       simp [extract_field_data, handleStep, hn])
    | (intro row n m raw hw hd hn hs hm ht htrim
       rcases row with ⟨w, dc, sc, tr⟩
       simp only at hw hd hs ht
       subst hw
       subst hd
       subst hs
       subst ht
       simp [extract_field_data, handleStep, hn, hm, htrim])
    | (intro row n m hw hd hn hs hm ht
       rcases row with ⟨w, dc, sc, tr⟩
       simp only at hw hd hs ht
       subst hw
       subst hd
       subst hs
       subst ht
       simp [extract_field_data, handleStep, hn, hm])
    | (intro row hw
       rcases row with ⟨w, dc, sc, tr⟩
       simp only at hw
       subst hw
       simp [extract_field_data, handleStep])

/-- Witness for C6 at concrete access outcomes. -/
theorem extract_field_data_contract_witness :
    extract_field_data ⟨true, .ok 0, .ok 1, .ok "x"⟩ "Not Specified" =
      .ok "Not Specified" ∧
    extract_field_data ⟨true, .ok 1, .stale, .ok "x"⟩ "Not Specified" =
      .error .staleElement ∧
    extract_field_data ⟨true, .ok 1, .ok 1, .webdriver⟩ "Not Specified" =
      .error .webDriver ∧
    extract_field_data ⟨true, .ok 1, .other, .ok "x"⟩ "Not Specified" =
      .ok "Not Specified" := by
  obtain ⟨-, habs, -, -, -, hst, -, -, -, hwd, -, hoth, -⟩ :=
    extract_field_data_contract
  exact ⟨habs ⟨true, .ok 0, .ok 1, .ok "x"⟩ rfl rfl,
    hst ⟨true, .ok 1, .stale, .ok "x"⟩ 1 rfl rfl (by decide) rfl,
    hwd ⟨true, .ok 1, .ok 1, .webdriver⟩ 1 1 rfl rfl (by decide) rfl (by decide) rfl,
    hoth ⟨true, .ok 1, .other, .ok "x"⟩ 1 rfl rfl (by decide) rfl⟩

/-! ### C7: the stop flag cuts the sliced sleep short -/

/-- C7: the inter-cycle sleep is performed in 0.05-second slices, each
checking the stop flag first.  If the flag (monotone once set, as
`threading.Event` is) reads set at check `t`, at most `t` slices are ever
slept — so a flag set during a slice is honoured at the next check, within
one slice, rather than after the full remaining cycle budget; and when the
flag never reads set, the full budget of `n` slices is slept. -/
theorem stop_mid_sleep_exits_within_slice :
    (∀ (n t : Nat) (stop : Nat → Bool),
      (∀ i j, i ≤ j → stop i = true → stop j = true) → stop t = true →
      claimer_wait_slices n stop ≤ t) ∧
    (∀ (n : Nat) (stop : Nat → Bool), (∀ i, i < n → stop i = false) →
      claimer_wait_slices n stop = n) := by
  constructor
  · intro n
    induction n with
    | zero => intro t stop _ _; simp [claimer_wait_slices]
    | succ k ih =>
      intro t stop hmono hstop
      rw [claimer_wait_slices]
      by_cases h0 : stop 0 = true
      · simp [h0]
      · rw [if_neg h0]
        cases t with
        | zero => exact absurd hstop h0
        | succ s =>
          have hrec := ih s (fun j => stop (j + 1))
            (fun i j hij hi => hmono (i + 1) (j + 1) (by omega) hi) hstop
          omega
  · intro n
    induction n with
    | zero => intro stop _; rfl
    | succ k ih =>
      intro stop hstop
      rw [claimer_wait_slices]
      rw [if_neg (by simp [hstop 0 (Nat.succ_pos k)])]
      have hrec := ih (fun j => stop (j + 1)) (fun i hi => hstop (i + 1) (by omega))
      omega

/-- Witness for C7: a flag that turns on at check 3 caps a 140-slice budget
(the 7-second cycle) at 3 slices; a flag that never turns on sleeps all 140. -/
theorem stop_mid_sleep_witness :
    claimer_wait_slices 140 (fun i => decide (3 ≤ i)) ≤ 3 ∧
    claimer_wait_slices 140 (fun _ => false) = 140 := by
  constructor
  · exact stop_mid_sleep_exits_within_slice.1 140 3 (fun i => decide (3 ≤ i))
      (fun i j hij hi => by
        simp only [decide_eq_true_eq] at hi ⊢
        omega)
      (by decide)
  · exact stop_mid_sleep_exits_within_slice.2 140 (fun _ => false) (fun i _ => rfl)

/-! ### C8: fatal status text against later updates -/

theorem isPrefixOf_append_right (n l r : List Char) (h : n.isPrefixOf l = true) :
    n.isPrefixOf (l ++ r) = true := by
  induction n generalizing l with
  | nil => cases l ++ r <;> rfl
  | cons c nt ih =>
    cases l with
    | nil => simp [List.isPrefixOf] at h
    | cons d lt =>
      simp only [List.isPrefixOf, Bool.and_eq_true] at h
      simp only [List.cons_append, List.isPrefixOf, Bool.and_eq_true]
      exact ⟨h.1, ih lt h.2⟩

theorem containsSub_append_left (A B n : List Char) (h : containsSub A n = true) :
    containsSub (A ++ B) n = true := by
  induction A with
  | nil =>
    simp only [containsSub] at h
    have hn : n = [] := by
      cases n with
      | nil => rfl
      | cons c t => simp [List.isEmpty] at h
    subst hn
    cases B <;> simp [containsSub, List.isPrefixOf]
  | cons c t ih =>
    rw [List.cons_append]
    simp only [containsSub, Bool.or_eq_true] at h ⊢
    rcases h with h | h
    · exact Or.inl (isPrefixOf_append_right n (c :: t) B h)
    · exact Or.inr (ih h)

theorem upperStr_append (a b : String) :
    upperStr (a ++ b) = upperStr a ++ upperStr b := by
  rcases a with ⟨la⟩
  rcases b with ⟨lb⟩
  show String.mk ((la ++ lb).map Char.toUpper) =
    String.mk (la.map Char.toUpper ++ lb.map Char.toUpper)
  rw [List.map_append]

theorem strIn_append_left (needle a b : String) (h : strIn needle a = true) :
    strIn needle (a ++ b) = true := by
  rcases a with ⟨la⟩
  rcases b with ⟨lb⟩
  exact containsSub_append_left la lb needle.data h

theorem critical_status_fatal (fs : String) :
    statusHasKw claimer_status_keywords_exit (run_claimer_status_critical fs) = true := by
  unfold run_claimer_status_critical statusHasKw
  apply List.any_eq_true.mpr
  refine ⟨"CRITICAL", by decide, ?_⟩
  rw [upperStr_append, upperStr_append]
  apply strIn_append_left
  apply strIn_append_left
  decide

/-- C8 counterexample: with the status fatal
(`Claimer CRITICAL: Fatal issue detected (DRIVER_DEAD_ROW_FIND). Forcing
stop.`), the observer's Stop click overwrites it unconditionally with the
non-error text `Claimer: Stop requested... Awaiting thread termination.`,
which the cleanup then rewrites to the routine message
`Claimer: Monitoring stopped by user. Claimer shut down.` — a fatal status
is replaced by milder ones. -/
theorem fatal_status_reverts_counterexample :
    statusHasKw claimer_status_keywords_exit
      (run_claimer_status_critical "DRIVER_DEAD_ROW_FIND") = true ∧
    toggle_monitoring_stop_status
      (run_claimer_status_critical "DRIVER_DEAD_ROW_FIND") =
      "Claimer: Stop requested... Awaiting thread termination." ∧
    statusHasKw claimer_status_keywords_exit
      "Claimer: Stop requested... Awaiting thread termination." = false ∧
    run_claimer_status_cleanup
      "Claimer: Stop requested... Awaiting thread termination." true =
      "Claimer: Monitoring stopped by user. Claimer shut down." := by
  exact ⟨by decide, rfl, by decide, by decide⟩

/-- C8 (amended): once the status string reflects a fatal condition, no
status update performed by the worker itself ever replaces it with a milder
message — the guarded routine updates leave it unchanged, the post-loop
stopped-by-user rewrite is skipped, and the final cleanup at most appends
` Claimer shut down.`; the critical handler always writes a fatal text.
However the observer's Stop click overwrites the status unconditionally
with a non-error message, so the guarantee holds only for worker-side
updates. -/
theorem fatal_status_never_reverts_in_worker :
    (∀ s pt gh ts, statusHasKw claimer_status_keywords_loop s = true →
      run_claimer_status_checking s pt gh ts = s) ∧
    (∀ s ts, statusHasKw claimer_status_keywords_loop s = true →
      run_claimer_status_both_full s ts = s) ∧
    (∀ s fs ts, statusHasKw claimer_status_keywords_loop s = true →
      run_claimer_status_no_case s fs ts = s) ∧
    (∀ s b, statusHasKw claimer_status_keywords_exit s = true →
      run_claimer_status_post_loop s b = s) ∧
    (∀ s b, statusHasKw claimer_status_keywords_cleanup s = true →
      run_claimer_status_cleanup s b = s ∨
      run_claimer_status_cleanup s b = s ++ " Claimer shut down.") ∧
    (∀ fs, statusHasKw claimer_status_keywords_exit
      (run_claimer_status_critical fs) = true) ∧
    (∀ s, statusHasKw claimer_status_keywords_exit
      (toggle_monitoring_stop_status s) = false) := by
  refine ⟨?_, ?_, ?_, ?_, ?_, critical_status_fatal, fun s => ?_⟩
  case refine_6 =>
    show statusHasKw claimer_status_keywords_exit
      "Claimer: Stop requested... Awaiting thread termination." = false
    decide
  · intro s pt gh ts h
    unfold run_claimer_status_checking
    rw [if_pos h]
  · intro s ts h
    unfold run_claimer_status_both_full
    rw [if_pos h]
  · intro s fs ts h
    unfold run_claimer_status_no_case
    rw [if_pos h]
  · intro s b h
    unfold run_claimer_status_post_loop
    simp [h]
  · intro s b h
    unfold run_claimer_status_cleanup
    cases b with
    | false =>
      by_cases hsd : strIn "shut down" (lowerStr s) = true
      · simp [hsd]
      · simp only [Bool.not_eq_true] at hsd
        simp [hsd]
    | true =>
      rw [if_pos rfl, if_pos h]
      by_cases hsd : strIn "shut down" (lowerStr s) = true
      · simp [hsd]
      · simp only [Bool.not_eq_true] at hsd
        simp [hsd]

/-- Witness for C8 (amended) at a concrete fatal status. -/
theorem fatal_status_never_reverts_witness :
    run_claimer_status_checking
      "Claimer CRITICAL: Fatal issue detected (DRIVER_DEAD_ROW_FIND). Forcing stop."
      true false "12:00:00" =
      "Claimer CRITICAL: Fatal issue detected (DRIVER_DEAD_ROW_FIND). Forcing stop." ∧
    run_claimer_status_post_loop
      "Claimer CRITICAL: Fatal issue detected (DRIVER_DEAD_ROW_FIND). Forcing stop."
      true =
      "Claimer CRITICAL: Fatal issue detected (DRIVER_DEAD_ROW_FIND). Forcing stop." := by
  obtain ⟨hchk, -, -, hpost, -, -, -⟩ := fatal_status_never_reverts_in_worker
  exact ⟨hchk _ true false "12:00:00" (by decide), hpost _ true (by decide)⟩

/-! ### C9: leaderboard aggregation -/

theorem lbGo_cons (r : LbRow) (t : List LbRow) (scores : String → Nat)
    (counted : List String) :
    lbGo (r :: t) scores counted =
      if lb_skip_row r.user then lbGo t scores counted
      else if r.status = "inprogress" && !(counted.contains r.caseId) then
        lbGo t (fun u => if u = r.user then scores u + 1 else scores u)
          (r.caseId :: counted)
      else lbGo t scores counted := rfl

theorem specFirstQual_cons (r : LbRow) (t : List LbRow) (seen : List String) :
    specFirstQual (r :: t) seen =
      if lb_qualifies r && !(seen.contains r.caseId) then
        r :: specFirstQual t (r.caseId :: seen)
      else specFirstQual t seen := rfl

theorem lbGo_score_general (rows : List LbRow) :
    ∀ (scores : String → Nat) (counted : List String) (u : String),
      (lbGo rows scores counted).1 u =
        scores u +
          ((specFirstQual rows counted).filter (fun r => r.user = u)).length := by
  induction rows with
  | nil => intro scores counted u; simp [lbGo, specFirstQual]
  | cons r t ih =>
    intro scores counted u
    rw [lbGo_cons, specFirstQual_cons]
    by_cases hskip : lb_skip_row r.user = true
    · rw [if_pos hskip, if_neg (by simp [lb_qualifies, hskip])]
      exact ih scores counted u
    · simp only [Bool.not_eq_true] at hskip
      by_cases hstat : r.status = "inprogress"
      · by_cases hcont : counted.contains r.caseId = true
        · have hm : r.caseId ∈ counted := by simpa using hcont
          rw [if_neg (by simp [hskip]), if_neg (by simp [hm]),
            if_neg (by simp [hm])]
          exact ih scores counted u
        · simp only [Bool.not_eq_true] at hcont
          have hm : r.caseId ∉ counted := by simpa using hcont
          rw [if_neg (by simp [hskip]), if_pos (by simp [hstat, hm]),
            if_pos (by simp [lb_qualifies, hskip, hstat, hm])]
          rw [ih]
          show (if u = r.user then scores u + 1 else scores u) + _ = _
          rw [List.filter_cons]
          by_cases hu : r.user = u
          · rw [if_pos (show u = r.user from hu.symm), if_pos (by simp [hu]),
              List.length_cons]
            omega
          · rw [if_neg (fun h => hu h.symm), if_neg (by simp [hu])]
      · rw [if_neg (by simp [hskip]), if_neg (by simp [hstat]),
          if_neg (by simp [lb_qualifies, hstat])]
        exact ih scores counted u

theorem specFirstQual_qualifies :
    ∀ (rows : List LbRow) (seen : List String) (r : LbRow),
      r ∈ specFirstQual rows seen → lb_qualifies r = true := by
  intro rows
  induction rows with
  | nil => intro seen r hr; simp [specFirstQual] at hr
  | cons x t ih =>
    intro seen r hr
    rw [specFirstQual_cons] at hr
    by_cases hc : (lb_qualifies x && !(seen.contains x.caseId)) = true
    · rw [if_pos hc] at hr
      rcases List.mem_cons.mp hr with rfl | hr
      · exact (Bool.and_eq_true _ _ |>.mp hc).1
      · exact ih _ r hr
    · rw [if_neg hc] at hr
      exact ih _ r hr

theorem lbGo_counted_nodup :
    ∀ (rows : List LbRow) (scores : String → Nat) (counted : List String),
      counted.Nodup → ((lbGo rows scores counted).2).Nodup := by
  intro rows
  induction rows with
  | nil => intro scores counted h; exact h
  | cons r t ih =>
    intro scores counted h
    rw [lbGo_cons]
    by_cases hskip : lb_skip_row r.user = true
    · rw [if_pos hskip]; exact ih _ _ h
    · rw [if_neg hskip]
      by_cases hcond :
          (decide (r.status = "inprogress") && !(counted.contains r.caseId)) = true
      · rw [if_pos hcond]
        apply ih
        refine List.nodup_cons.mpr ⟨?_, h⟩
        have hnc := (Bool.and_eq_true _ _ |>.mp hcond).2
        simp only [Bool.not_eq_true'] at hnc
        intro hmem
        simp [hmem] at hnc
      · rw [if_neg hcond]; exact ih _ _ h

/-- C9: over any filtered log table (every selected day, and likewise every
selected month/year runs the identical loop), the leaderboard counts per
owner the number of distinct case ids whose first qualifying sighting —
status equal to `inprogress` after trimming and lowercasing, owner neither
empty nor `n/a` nor containing `BOT_CLAIMED` — belongs to that owner; every
excluded owner scores zero, and each distinct case id is counted at most
once (the counted set is duplicate-free). -/
theorem leaderboard_aggregation_correct :
    (∀ (rows : List LbRow) (u : String),
      (update_sidebar_leaderboard rows).1 u = spec_leaderboard_score rows u) ∧
    (∀ (rows : List LbRow) (u : String), lb_skip_row u = true →
      (update_sidebar_leaderboard rows).1 u = 0) ∧
    (∀ rows : List LbRow, ((update_sidebar_leaderboard rows).2).Nodup) := by
  have hscore : ∀ (rows : List LbRow) (u : String),
      (update_sidebar_leaderboard rows).1 u = spec_leaderboard_score rows u := by
    intro rows u
    unfold update_sidebar_leaderboard spec_leaderboard_score
    rw [lbGo_score_general]
    rw [Nat.zero_add]
  refine ⟨hscore, ?_, ?_⟩
  · intro rows u hskip
    rw [hscore]
    unfold spec_leaderboard_score
    rw [List.length_eq_zero]
    rw [List.filter_eq_nil_iff]
    intro r hr
    have hq := specFirstQual_qualifies _ _ r hr
    simp only [lb_qualifies, Bool.and_eq_true, Bool.not_eq_true'] at hq
    simp only [decide_eq_true_eq]
    intro hru
    rw [hru] at hq
    rw [hq.1] at hskip
    cases hskip
  · intro rows
    exact lbGo_counted_nodup _ _ [] List.nodup_nil

/-- Witness for C9 on concrete rows: the refinement applies, and the bot
identity scores zero. -/
theorem leaderboard_aggregation_witness :
    (update_sidebar_leaderboard lbRowsExample).1 "alice@example.com" =
      spec_leaderboard_score lbRowsExample "alice@example.com" ∧
    (update_sidebar_leaderboard lbRowsExample).1 "BOT_CLAIMED bot" = 0 := by
  obtain ⟨h1, h2, -⟩ := leaderboard_aggregation_correct
  exact ⟨h1 lbRowsExample "alice@example.com",
    h2 lbRowsExample "BOT_CLAIMED bot" (by decide)⟩

/-! ### C10: the finish action is frame-preserving across categories -/

/-- C10: finishing the Portugal case clears only the Portugal CategorySlot,
appends exactly one `Completed` log entry built from that case's snapshot,
and leaves the Ghana slot and its snapshot untouched — and symmetrically for
Ghana; when the named category's slot is already empty, the state (both
slots and the log) is unchanged and nothing is logged. -/
theorem finish_case_frame (st : ClaimerUiState) (now : Nat) :
    (∀ c, st.pt = some c →
      finish_case_callback "pt" now st =
        ⟨none, st.gh, append_to_case_log (finish_entry c now) st.log⟩ ∧
      (get_case_log_df (finish_case_callback "pt" now st).log).rows =
        (get_case_log_df st.log).rows ++ [entryRow (finish_entry c now)] ∧
      getCol LOG_COLUMNS_DEFINITION (entryRow (finish_entry c now))
        "Status (Observed)" = some (.s "Completed") ∧
      getCol LOG_COLUMNS_DEFINITION (entryRow (finish_entry c now))
        "Case Display ID" = some (.s c.display_id)) ∧
    (∀ c, st.gh = some c →
      finish_case_callback "gh" now st =
        ⟨st.pt, none, append_to_case_log (finish_entry c now) st.log⟩ ∧
      (get_case_log_df (finish_case_callback "gh" now st).log).rows =
        (get_case_log_df st.log).rows ++ [entryRow (finish_entry c now)] ∧
      getCol LOG_COLUMNS_DEFINITION (entryRow (finish_entry c now))
        "Status (Observed)" = some (.s "Completed")) ∧
    (st.pt = none → finish_case_callback "pt" now st = st) ∧
    (st.gh = none → finish_case_callback "gh" now st = st) := by
  rcases st with ⟨pt, gh, log⟩
  have hstat : ∀ c : Case,
      getCol LOG_COLUMNS_DEFINITION (entryRow (finish_entry c now))
        "Status (Observed)" = some (.s "Completed") := by
    intro c
    unfold entryRow
    rw [getCol_map _ _ _ (by decide)]
    rfl
  have hid : ∀ c : Case,
      getCol LOG_COLUMNS_DEFINITION (entryRow (finish_entry c now))
        "Case Display ID" = some (.s c.display_id) := by
    intro c
    unfold entryRow
    rw [getCol_map _ _ _ (by decide)]
    rfl
  refine ⟨?_, ?_, ?_, ?_⟩
  · intro c hc
    subst hc
    refine ⟨rfl, ?_, hstat c, hid c⟩
    show (get_case_log_df (append_to_case_log (finish_entry c now) log)).rows = _
    rw [append_read]
  · intro c hc
    subst hc
    refine ⟨rfl, ?_, hstat c⟩
    show (get_case_log_df (append_to_case_log (finish_entry c now) log)).rows = _
    rw [append_read]
  · intro hc
    subst hc
    rfl
  · intro hc
    subst hc
    rfl

/-- Witness for C10 at a concrete state with an active Portugal case. -/
theorem finish_case_frame_witness :
    finish_case_callback "pt" 10 ⟨some caseX, none, none⟩ =
      ⟨none, none, append_to_case_log (finish_entry caseX 10) none⟩ ∧
    finish_case_callback "gh" 10 ⟨some caseX, none, none⟩ =
      ⟨some caseX, none, none⟩ := by
  obtain ⟨hpt, -, -, hgh⟩ := finish_case_frame ⟨some caseX, none, none⟩ 10
  exact ⟨(hpt caseX rfl).1, hgh rfl⟩

end CaseClaimer
